import Mathlib

/-!
Verification development for the camera-spline editor.

The definitions below are shallow embeddings of the functions in the
repository (a react-three-fiber application).  Scalars are modelled as
exact numbers: rationals where the code only uses field operations, and
real numbers where a square root is involved (vector length).  Machine
floats are idealised as exact arithmetic.

Source map:
* `bezierPoint`, `getPoints` — three.js `CubicBezierCurve3.getPoint` /
  `Curve.getPoints` (the external curve library the repository calls).
* `computeCurve`, `buildPath` — the `computeCurve` closure and the
  `Spline` component of the main revision (`src/unnamed/part_000`,
  third document).
* `modes`, `SelState`, `Event`, `step` — the valtio `state` proxy and
  its event handlers (`onClick`, `onPointerMissed`, `onContextMenu`,
  and the `CameraBundle` effect on rig-count change).
* `makePerspective`, `projectionMatrix`, `projectionMatrixInverse`,
  `applyMatrix4`, `ComputeFrustumVertices`, `frustum_indices` — the
  frustum wireframe builder of `src/src/app.jsx` together with the
  three.js perspective-camera matrix derivation it relies on.
* `levaClamp` and the intrinsics setters — the leva control ranges
  declared in `useControls`.
* `vlength`, `z_depth`, handle placement, `updateFocal` — the tangent
  handle geometry of the main revision.
-/

namespace CameraSpline

/-- Three-component vector, the model of `THREE.Vector3` with exact
scalars. -/
structure Vec3 (α : Type) where
  x : α
  y : α
  z : α
  deriving DecidableEq, Repr

/-- Zero vector, the default used for out-of-range list reads (never hit
by in-range indices). -/
def vzero {α : Type} [Field α] : Vec3 α := ⟨0, 0, 0⟩

/-- Cubic Bezier point, following three.js `CubicBezier` interpolation:
each component is the Bernstein combination of the four control points. -/
def bezierPoint {α : Type} [Field α] (p0 p1 p2 p3 : Vec3 α) (t : α) : Vec3 α :=
  let k := 1 - t
  let b0 := k ^ 3
  let b1 := 3 * k ^ 2 * t
  let b2 := 3 * k * t ^ 2
  let b3 := t ^ 3
  ⟨b0 * p0.x + b1 * p1.x + b2 * p2.x + b3 * p3.x,
   b0 * p0.y + b1 * p1.y + b2 * p2.y + b3 * p3.y,
   b0 * p0.z + b1 * p1.z + b2 * p2.z + b3 * p3.z⟩

/-- Model of three.js `Curve.getPoints(divisions)` for a cubic Bezier
curve: points at parameters `d / divisions` for `d = 0 .. divisions`,
producing `divisions + 1` points. -/
def getPoints {α : Type} [Field α] (p0 p1 p2 p3 : Vec3 α) (divisions : ℕ) : List (Vec3 α) :=
  (List.range (divisions + 1)).map
    (fun (d : ℕ) => bezierPoint p0 p1 p2 p3 ((d : α) / (divisions : α)))

/-- Model of the `computeCurve` closure of the `Spline` component:
slice the three position tables to the first `count` entries, then for
each consecutive pair `(i, i+1)` build the cubic Bezier with control
points `[focalPos[i], rightPos[i], leftPos[i+1], focalPos[i+1]]`,
take the first `samples` of its `getPoints samples` points, and
concatenate.  The code flattens points into a float array; we keep the
list of points (each group of three floats is one point). -/
def computeCurve {α : Type} [Field α] (count : ℕ)
    (focalPos leftPos rightPos : List (Vec3 α)) (samples : ℕ) : List (Vec3 α) :=
  let f := focalPos.take count
  let l := leftPos.take count
  let r := rightPos.take count
  (List.range (f.length - 1)).flatMap
    (fun i =>
      (getPoints (f.getD i vzero) (r.getD i vzero) (l.getD (i + 1) vzero)
        (f.getD (i + 1) vzero) samples).take samples)

/-- Model of the `Spline` component output: the polyline exists only
when `count > 1` (both the JSX guard and the per-frame update are behind
`count > 1`); otherwise no path is produced. -/
def buildPath {α : Type} [Field α] (count : ℕ)
    (focalPos leftPos rightPos : List (Vec3 α)) (samples : ℕ) : Option (List (Vec3 α)) :=
  if count > 1 then some (computeCurve count focalPos leftPos rightPos samples) else none

/-! Selection / gizmo-mode state machine (the valtio `state` proxy). -/

/-- The gizmo mode list of the source: `const modes = ["translate", "rotate"]`. -/
def modes : List String := ["translate", "rotate"]

/-- Selection state: `state.focal` (the id of the selected rig, if any) and
`state.mode` (index into `modes`).  Position tables of the proxy are modelled
separately, as the curve builder parameters. -/
structure SelState where
  focal : Option ℕ
  mode : ℕ
  deriving DecidableEq, Repr

/-- Initial proxy value: `proxy({ focal: null, ..., mode: 0 })`. -/
def initialState : SelState := ⟨none, 0⟩

/-- Discrete interaction events dispatched to the shared state:
primary click on a rig focal sphere, a missed primary click,
a context-menu (secondary) event on a rig, and a rig-count change
(the `CameraBundle` effect keyed on `count`). -/
inductive Event where
  | clickRig (id : ℕ)
  | clickMiss
  | contextMenu (id : ℕ)
  | countChange
  deriving DecidableEq, Repr

/-- Transition function, read off the event handlers:
`onClick` sets `state.focal = id` (and nothing else);
`onPointerMissed` with a click sets `state.focal = null`;
`onContextMenu` fires only when `snap.focal === id` and then sets
`state.mode = (snap.mode + 1) % modes.length`;
the `CameraBundle` effect on a count change sets `state.focal = null`. -/
def step (s : SelState) : Event → SelState
  | Event.clickRig id => { s with focal := some id }
  | Event.clickMiss => { s with focal := none }
  | Event.contextMenu id =>
      if s.focal = some id then { s with mode := (s.mode + 1) % modes.length } else s
  | Event.countChange => { s with focal := none }

/-- States reachable from the initial proxy value by event steps. -/
inductive Reachable : SelState → Prop
  | init : Reachable initialState
  | next {s : SelState} (h : Reachable s) (e : Event) : Reachable (step s e)

/-! Frustum wireframe builder and the perspective projection matrix. -/

/-- Model of `THREE.Matrix4.makePerspective` (WebGL depth convention),
as a Mathlib 4x4 matrix over the rationals. -/
def makePerspective (left right top bottom near far : ℚ) : Matrix (Fin 4) (Fin 4) ℚ :=
  let x := 2 * near / (right - left)
  let y := 2 * near / (top - bottom)
  let a := (right + left) / (right - left)
  let b := (top + bottom) / (top - bottom)
  let c := -(far + near) / (far - near)
  let d := -2 * far * near / (far - near)
  !![x, 0, a, 0;
     0, y, b, 0;
     0, 0, c, d;
     0, 0, -1, 0]

/-- Model of `THREE.PerspectiveCamera.updateProjectionMatrix` with
`zoom = 1` and no film offset.  The tangent of half the vertical field
of view is passed directly as `t` (the code computes
`t = tan(DEG2RAD * 0.5 * fov)`), keeping the matrix entries rational. -/
def projectionMatrix (t aspect near far : ℚ) : Matrix (Fin 4) (Fin 4) ℚ :=
  let top := near * t
  let height := 2 * top
  let width := aspect * height
  let left := -(1 / 2) * width
  makePerspective left (left + width) top (top - height) near far

/-- Closed form of the inverse of `projectionMatrix` (three.js computes
`projectionMatrixInverse` by generic 4x4 inversion of the projection
matrix; the theorems below verify that this matrix is that inverse). -/
def projectionMatrixInverse (t aspect near far : ℚ) : Matrix (Fin 4) (Fin 4) ℚ :=
  let top := near * t
  let height := 2 * top
  let width := aspect * height
  let left := -(1 / 2) * width
  let right := left + width
  let bottom := top - height
  let x := 2 * near / (right - left)
  let y := 2 * near / (top - bottom)
  let a := (right + left) / (right - left)
  let b := (top + bottom) / (top - bottom)
  let c := -(far + near) / (far - near)
  let d := -2 * far * near / (far - near)
  !![1 / x, 0, 0, a / x;
     0, 1 / y, 0, b / y;
     0, 0, 0, -1;
     0, 0, 1 / d, c / d]

/-- Model of `THREE.Vector3.applyMatrix4`: treat `v` as `(x, y, z, 1)`,
multiply by the matrix, and divide by the resulting `w` component. -/
def applyMatrix4 (m : Matrix (Fin 4) (Fin 4) ℚ) (v : Vec3 ℚ) : Vec3 ℚ :=
  let w := m 3 0 * v.x + m 3 1 * v.y + m 3 2 * v.z + m 3 3
  ⟨(m 0 0 * v.x + m 0 1 * v.y + m 0 2 * v.z + m 0 3) / w,
   (m 1 0 * v.x + m 1 1 * v.y + m 1 2 * v.z + m 1 3) / w,
   (m 2 0 * v.x + m 2 1 * v.y + m 2 2 * v.z + m 2 3) / w⟩

/-- Model of `ComputeFrustumVertices` (`src/src/app.jsx`): the apex at
the local origin followed by the four NDC corners `(±1, ±1, 1)`
un-projected through the projection-matrix inverse of a perspective
camera with the given intrinsics.  The code flattens the five vectors
into a float array; we keep the list of five points. -/
def ComputeFrustumVertices (t aspect near far : ℚ) : List (Vec3 ℚ) :=
  let projInv := projectionMatrixInverse t aspect near far
  [⟨0, 0, 0⟩,
   applyMatrix4 projInv ⟨-1, -1, 1⟩,
   applyMatrix4 projInv ⟨-1, 1, 1⟩,
   applyMatrix4 projInv ⟨1, 1, 1⟩,
   applyMatrix4 projInv ⟨1, -1, 1⟩]

/-- The frustum index buffer of the source, verbatim. -/
def frustum_indices : List ℕ :=
  [0, 1, 2, 0, 2, 3, 0, 3, 4, 0, 4, 1, 1, 4, 3, 1, 3, 2]

/-! Leva control ranges: the intrinsics setters. -/

/-- Leva clamps a numeric control input to its `[min, max]` range. -/
def levaClamp (lo hi v : ℚ) : ℚ := max lo (min hi v)

/-- The `fov` control: `{ value: 55, min: 0, max: 180 }`. -/
def setFov (v : ℚ) : ℚ := levaClamp 0 180 v

/-- The `near` control: `{ value: 0.1, min: 0.01, max: 1 }`. -/
def setNear (v : ℚ) : ℚ := levaClamp (1 / 100) 1 v

/-- The `far` control: `{ value: 3, min: 1, max: 10 }`. -/
def setFar (v : ℚ) : ℚ := levaClamp 1 10 v

/-- The `aspect` control: `{ value: 1.6, min: 0.1, max: 10 }`. -/
def setAspect (v : ℚ) : ℚ := levaClamp (1 / 10) 10 v

/-- Intrinsics record carried by a rig camera. -/
structure Intrinsics where
  fov : ℚ
  aspect : ℚ
  near : ℚ
  far : ℚ
  deriving DecidableEq, Repr

/-- Model of `new THREE.PerspectiveCamera(fov, aspect, near, far)` and of
the `<PerspectiveCamera ... />` props: the constructor stores the four
values unconditionally; there is no validation and no failure path. -/
def mkPerspectiveCamera (fov aspect near far : ℚ) : Intrinsics :=
  ⟨fov, aspect, near, far⟩

/-! Tangent handle geometry (real scalars for the Euclidean length). -/

/-- Componentwise difference, `THREE.Vector3.sub`. -/
def vsub (u v : Vec3 ℝ) : Vec3 ℝ := ⟨u.x - v.x, u.y - v.y, u.z - v.z⟩

/-- Euclidean length, `THREE.Vector3.length`. -/
noncomputable def vlength (v : Vec3 ℝ) : ℝ := Real.sqrt (v.x ^ 2 + v.y ^ 2 + v.z ^ 2)

/-- The `z_depth` computed by `AuxCamera` from the `pos` and `foc`
controls: `-(pos - foc).length()`. -/
noncomputable def z_depth (pos foc : Vec3 ℝ) : ℝ := -vlength (vsub pos foc)

/-- Camera-local left handle placement, from the JSX
`position={[-leftHandle, 0, z_depth]}`. -/
noncomputable def leftHandleLocal (leftHandle : ℝ) (pos foc : Vec3 ℝ) : Vec3 ℝ :=
  ⟨-leftHandle, 0, z_depth pos foc⟩

/-- Camera-local right handle placement, from the JSX
`position={[rightHandle, 0, z_depth]}`. -/
noncomputable def rightHandleLocal (rightHandle : ℝ) (pos foc : Vec3 ℝ) : Vec3 ℝ :=
  ⟨rightHandle, 0, z_depth pos foc⟩

/-- Model of the `updateFocal` callback of `Controls`: recompute
`z_depth = -(camPos - focalPos).length()` and overwrite the `z`
coordinate of both handle positions with it. -/
noncomputable def updateFocal (camPos focalPos leftH rightH : Vec3 ℝ) : Vec3 ℝ × Vec3 ℝ :=
  let zd := -vlength (vsub camPos focalPos)
  ({ leftH with z := zd }, { rightH with z := zd })

/-- View of a `Vec3` as a point of the Euclidean space `ℝ³`, used to
state distances with the Mathlib metric. -/
noncomputable def toE (v : Vec3 ℝ) : EuclideanSpace ℝ (Fin 3) := ![v.x, v.y, v.z]

/-! Scenario of claim C6: two rigs at `(0, 1, 2.5)` and `(2, 1, 2.5)`,
both aimed at `(0, 1, 0)`.  Following `CameraBundle`, each focal point
is `pos + normalize(target - pos)` (distance one from the camera, so
`z_depth = -1`), and each handle sits at camera-local
`(±0.5, 0, z_depth)` mapped through the lookAt frame of the camera
(columns `xAxis = normalize(up × zAxis)`, `zAxis = normalize(pos -
target)`).  For rig 1 the direction norm is `√10.25 = √41 / 2`. -/

/-- Focal world positions of the two scenario rigs. -/
noncomputable def scenarioFocal : List (Vec3 ℝ) :=
  [⟨0, 1, 3 / 2⟩,
   ⟨2 - 4 / Real.sqrt 41, 1, 5 / 2 - 5 / Real.sqrt 41⟩]

/-- Left handle world positions of the two scenario rigs
(`pos - 0.5 * xAxis + dir`). -/
noncomputable def scenarioLeft : List (Vec3 ℝ) :=
  [⟨-(1 / 2), 1, 3 / 2⟩,
   ⟨2 - 13 / (2 * Real.sqrt 41), 1, 5 / 2 - 3 / Real.sqrt 41⟩]

/-- Right handle world positions of the two scenario rigs
(`pos + 0.5 * xAxis + dir`). -/
noncomputable def scenarioRight : List (Vec3 ℝ) :=
  [⟨1 / 2, 1, 3 / 2⟩,
   ⟨2 - 3 / (2 * Real.sqrt 41), 1, 5 / 2 - 7 / Real.sqrt 41⟩]

/-! Theorems. -/

/-- Invariant helper: every reachable state keeps `mode` below 2.  The
only mutation of `mode` is the context-menu increment modulo
`modes.length = 2`. -/
theorem reachable_mode_lt {s : SelState} (h : Reachable s) : s.mode < 2 := by
  induction h with
  | init => decide
  | next h e ih =>
    cases e with
    | clickRig id => simpa [step] using ih
    | clickMiss => simpa [step] using ih
    | contextMenu id =>
      simp only [step, modes]
      split
      · exact Nat.mod_lt _ (by norm_num)
      · exact ih
    | countChange => simpa [step] using ih

/-- Claim C9: in every reachable state of the shared selection store the
gizmo mode is a valid index into the two-element mode list: it starts at
0 and stays below `modes.length`, so `modes[mode]` is always defined. -/
theorem gizmo_mode_valid_index {s : SelState} (h : Reachable s) :
    initialState.mode = 0 ∧ s.mode < modes.length := by
  refine ⟨rfl, ?_⟩
  simpa [modes] using reachable_mode_lt h

/-- Witness for C9 at the initial state. -/
theorem gizmo_mode_valid_index_witness :
    Reachable initialState ∧
      (initialState.mode = 0 ∧ initialState.mode < modes.length) :=
  ⟨Reachable.init, gizmo_mode_valid_index Reachable.init⟩

/-- Claim C8: on a reachable state with rig `r` selected, applying the
secondary (context-menu) toggle twice returns the whole selection state,
gizmo mode included, to its original value. -/
theorem contextMenu_double_toggle {s : SelState} {r : ℕ} (h : Reachable s)
    (hr : s.focal = some r) :
    step (step s (Event.contextMenu r)) (Event.contextMenu r) = s := by
  have hm := reachable_mode_lt h
  obtain ⟨f, m⟩ := s
  replace hm : m < 2 := hm
  replace hr : f = some r := hr
  subst hr
  simp only [step, modes, if_pos, List.length_cons, List.length_nil]
  rw [SelState.mk.injEq]
  refine ⟨rfl, ?_⟩
  omega

/-- Witness for C8: select rig 0 from the initial state, then toggle
twice. -/
theorem contextMenu_double_toggle_witness :
    Reachable (SelState.mk (some 0) 0) ∧ (SelState.mk (some 0) 0).focal = some 0 ∧
      step (step (SelState.mk (some 0) 0) (Event.contextMenu 0)) (Event.contextMenu 0) =
        SelState.mk (some 0) 0 :=
  ⟨Reachable.next Reachable.init (Event.clickRig 0), rfl,
    contextMenu_double_toggle (Reachable.next Reachable.init (Event.clickRig 0)) rfl⟩

/-- Counterexample to claim C4: starting from a reachable state in
Rotate mode (select rig 0, toggle), selecting rig 0 and then rig 1
leaves the mode at Rotate — the primary-select handler never resets
`state.mode`, so the final mode is not Translate. -/
theorem select_resets_mode_counterexample :
    ((step (step (step (step initialState (Event.clickRig 0)) (Event.contextMenu 0))
        (Event.clickRig 0)) (Event.clickRig 1)).focal = some 1) ∧
      ((step (step (step (step initialState (Event.clickRig 0)) (Event.contextMenu 0))
        (Event.clickRig 0)) (Event.clickRig 1)).mode ≠ 0) := by
  decide

/-- Amended claim C4: after a primary-select on rig `a` followed by a
primary-select on a distinct rig `b`, the selection is `b` and the gizmo
mode is unchanged from the starting state (it is not reset). -/
theorem select_select_final_state (s : SelState) (a b : ℕ) (_hab : a ≠ b) :
    (step (step s (Event.clickRig a)) (Event.clickRig b)).focal = some b ∧
      (step (step s (Event.clickRig a)) (Event.clickRig b)).mode = s.mode :=
  ⟨rfl, rfl⟩

/-- Witness for the amended C4 at rigs 0 and 1 from the initial state. -/
theorem select_select_final_state_witness :
    (0 : ℕ) ≠ 1 ∧
      ((step (step initialState (Event.clickRig 0)) (Event.clickRig 1)).focal = some 1 ∧
        (step (step initialState (Event.clickRig 0)) (Event.clickRig 1)).mode =
          initialState.mode) :=
  ⟨by decide, select_select_final_state initialState 0 1 (by decide)⟩

/-- Claim C7: a rig-count change forces the selection to `none` from
every state, whatever rig was selected before. -/
theorem countChange_clears_selection (s : SelState) :
    (step s Event.countChange).focal = none := rfl

/-- Claim C10: the curve builder reads only the first `count` entries of
the focal and handle tables (the code slices each table to `count`), so
two states agreeing on those entries produce the same path and stale
entries at indices at or above `count` are irrelevant. -/
theorem computeCurve_stale_irrelevant {α : Type} [Field α] (count samples : ℕ)
    (f₁ l₁ r₁ f₂ l₂ r₂ : List (Vec3 α))
    (hf : f₁.take count = f₂.take count) (hl : l₁.take count = l₂.take count)
    (hr : r₁.take count = r₂.take count) :
    computeCurve count f₁ l₁ r₁ samples = computeCurve count f₂ l₂ r₂ samples ∧
      buildPath count f₁ l₁ r₁ samples = buildPath count f₂ l₂ r₂ samples := by
  constructor
  · simp only [computeCurve, hf, hl, hr]
  · simp only [buildPath, computeCurve, hf, hl, hr]

/-- Witness for C10: tables differing only in a stale third entry. -/
theorem computeCurve_stale_irrelevant_witness :
    ([⟨0, 0, 0⟩, ⟨1, 1, 1⟩, ⟨5, 5, 5⟩] : List (Vec3 ℚ)).take 2 =
        ([⟨0, 0, 0⟩, ⟨1, 1, 1⟩, ⟨7, 7, 7⟩] : List (Vec3 ℚ)).take 2 ∧
      ([⟨2, 0, 0⟩, ⟨3, 1, 1⟩, ⟨5, 0, 5⟩] : List (Vec3 ℚ)).take 2 =
        ([⟨2, 0, 0⟩, ⟨3, 1, 1⟩, ⟨0, 0, 0⟩] : List (Vec3 ℚ)).take 2 ∧
      ([⟨4, 0, 0⟩, ⟨5, 1, 1⟩, ⟨5, 9, 5⟩] : List (Vec3 ℚ)).take 2 =
        ([⟨4, 0, 0⟩, ⟨5, 1, 1⟩, ⟨1, 2, 3⟩] : List (Vec3 ℚ)).take 2 ∧
      (computeCurve 2 ([⟨0, 0, 0⟩, ⟨1, 1, 1⟩, ⟨5, 5, 5⟩] : List (Vec3 ℚ))
          [⟨2, 0, 0⟩, ⟨3, 1, 1⟩, ⟨5, 0, 5⟩] [⟨4, 0, 0⟩, ⟨5, 1, 1⟩, ⟨5, 9, 5⟩] 3 =
        computeCurve 2 ([⟨0, 0, 0⟩, ⟨1, 1, 1⟩, ⟨7, 7, 7⟩] : List (Vec3 ℚ))
          [⟨2, 0, 0⟩, ⟨3, 1, 1⟩, ⟨0, 0, 0⟩] [⟨4, 0, 0⟩, ⟨5, 1, 1⟩, ⟨1, 2, 3⟩] 3 ∧
        buildPath 2 ([⟨0, 0, 0⟩, ⟨1, 1, 1⟩, ⟨5, 5, 5⟩] : List (Vec3 ℚ))
          [⟨2, 0, 0⟩, ⟨3, 1, 1⟩, ⟨5, 0, 5⟩] [⟨4, 0, 0⟩, ⟨5, 1, 1⟩, ⟨5, 9, 5⟩] 3 =
        buildPath 2 ([⟨0, 0, 0⟩, ⟨1, 1, 1⟩, ⟨7, 7, 7⟩] : List (Vec3 ℚ))
          [⟨2, 0, 0⟩, ⟨3, 1, 1⟩, ⟨0, 0, 0⟩] [⟨4, 0, 0⟩, ⟨5, 1, 1⟩, ⟨1, 2, 3⟩] 3) :=
  ⟨rfl, rfl, rfl,
    computeCurve_stale_irrelevant 2 3 _ _ _ _ _ _ rfl rfl rfl⟩

/-- Reading an index below the cutoff through a `take` is reading the
original list. -/
theorem getD_take {α : Type} (l : List α) (d : α) {i k : ℕ} (h : i < k) :
    (l.take k).getD i d = l.getD i d := by
  by_cases hi : i < l.length
  · rw [List.getD_eq_getElem _ _ (by simp; omega), List.getD_eq_getElem _ _ hi]
    simp [List.getElem_take]
  · rw [List.getD_eq_default _ _ (by simp; omega), List.getD_eq_default _ _ (by omega)]

/-- Pointwise-equal segment builders concatenate to the same polyline. -/
theorem flatMap_congr {α β : Type} {l : List α} {f g : α → List β}
    (h : ∀ a ∈ l, f a = g a) : l.flatMap f = l.flatMap g := by
  induction l with
  | nil => rfl
  | cons x xs ih =>
    simp only [List.flatMap_cons]
    rw [h x (by simp), ih (fun a ha => h a (by simp [ha]))]

/-- The first `samples` of the `samples + 1` curve points are the Bezier
points at parameters `j / samples` for `j = 0 .. samples - 1`. -/
theorem getPoints_take {α : Type} [Field α] (p0 p1 p2 p3 : Vec3 α) (samples : ℕ) :
    (getPoints p0 p1 p2 p3 samples).take samples =
      (List.range samples).map
        (fun (j : ℕ) => bezierPoint p0 p1 p2 p3 ((j : α) / (samples : α))) := by
  rw [getPoints, ← List.map_take, List.take_range]
  congr 2
  omega

/-- Unfolding of `computeCurve` on tables holding at least `n` rigs: the
concatenation over consecutive pairs of the first `samples` Bezier
points of each segment. -/
theorem computeCurve_eq_spec {α : Type} [Field α] (n samples : ℕ)
    (f l r : List (Vec3 α)) (hf : n ≤ f.length) (_hl : n ≤ l.length) (_hr : n ≤ r.length) :
    computeCurve n f l r samples =
      (List.range (n - 1)).flatMap (fun i =>
        (List.range samples).map (fun (j : ℕ) =>
          bezierPoint (f.getD i vzero) (r.getD i vzero) (l.getD (i + 1) vzero)
            (f.getD (i + 1) vzero) ((j : α) / (samples : α)))) := by
  have hfl : (f.take n).length = n := by simp [hf]
  simp only [computeCurve, hfl]
  refine flatMap_congr ?_
  intro i hi
  rw [List.mem_range] at hi
  rw [getD_take f vzero (by omega), getD_take f vzero (by omega),
    getD_take l vzero (by omega), getD_take r vzero (by omega), getPoints_take]

/-- Concatenating equally sized blocks multiplies the length. -/
theorem length_flatMap_const {α β : Type} (L : List α) (g : α → List β) (s : ℕ)
    (h : ∀ i ∈ L, (g i).length = s) : (L.flatMap g).length = L.length * s := by
  induction L with
  | nil => simp
  | cons x xs ih =>
    simp only [List.flatMap_cons, List.length_append, List.length_cons]
    rw [h x (by simp), ih (fun i hi => h i (by simp [hi]))]
    ring

/-- The polyline holds `samples` points per consecutive pair. -/
theorem computeCurve_length {α : Type} [Field α] (n samples : ℕ)
    (f l r : List (Vec3 α)) (hf : n ≤ f.length) (hl : n ≤ l.length) (hr : n ≤ r.length) :
    (computeCurve n f l r samples).length = (n - 1) * samples := by
  rw [computeCurve_eq_spec n samples f l r hf hl hr]
  rw [length_flatMap_const _ _ samples (fun i _ => by simp)]
  simp

/-- Claim C1: with `n` rigs, `buildPath` yields no path when `n < 2`;
when `n ≥ 2` it yields the concatenation, in rig order, of the sampled
cubic Bezier segments with control points
`[focal_i, rightHandle_i, leftHandle_(i+1), focal_(i+1)]` for each
consecutive pair, with exactly `(n - 1) * samples` points in total. -/
theorem buildPath_spec {α : Type} [Field α] (n samples : ℕ) (f l r : List (Vec3 α))
    (hf : n ≤ f.length) (hl : n ≤ l.length) (hr : n ≤ r.length) :
    (n < 2 → buildPath n f l r samples = none) ∧
      (2 ≤ n →
        buildPath n f l r samples =
          some ((List.range (n - 1)).flatMap (fun i =>
            (List.range samples).map (fun (j : ℕ) =>
              bezierPoint (f.getD i vzero) (r.getD i vzero) (l.getD (i + 1) vzero)
                (f.getD (i + 1) vzero) ((j : α) / (samples : α))))) ∧
        ∀ pts, buildPath n f l r samples = some pts →
          pts.length = (n - 1) * samples) := by
  constructor
  · intro h
    have : ¬(n > 1) := by omega
    simp [buildPath, this]
  · intro h
    have h1 : n > 1 := by omega
    refine ⟨?_, ?_⟩
    · simp only [buildPath, if_pos h1]
      rw [computeCurve_eq_spec n samples f l r hf hl hr]
    · intro pts hpts
      simp only [buildPath, if_pos h1, Option.some.injEq] at hpts
      rw [← hpts]
      exact computeCurve_length n samples f l r hf hl hr

/-- Witness for C1 with two rigs and two samples per segment. -/
theorem buildPath_spec_witness :
    2 ≤ ([⟨0, 0, 0⟩, ⟨3, 0, 0⟩] : List (Vec3 ℚ)).length ∧
      2 ≤ ([⟨1, 0, 0⟩, ⟨2, 0, 0⟩] : List (Vec3 ℚ)).length ∧
      2 ≤ ([⟨1, 1, 0⟩, ⟨2, 1, 0⟩] : List (Vec3 ℚ)).length ∧
      ((2 < 2 →
          buildPath 2 ([⟨0, 0, 0⟩, ⟨3, 0, 0⟩] : List (Vec3 ℚ))
            [⟨1, 0, 0⟩, ⟨2, 0, 0⟩] [⟨1, 1, 0⟩, ⟨2, 1, 0⟩] 2 = none) ∧
        (2 ≤ 2 →
          buildPath 2 ([⟨0, 0, 0⟩, ⟨3, 0, 0⟩] : List (Vec3 ℚ))
            [⟨1, 0, 0⟩, ⟨2, 0, 0⟩] [⟨1, 1, 0⟩, ⟨2, 1, 0⟩] 2 =
            some ((List.range (2 - 1)).flatMap (fun i =>
              (List.range 2).map (fun (j : ℕ) =>
                bezierPoint
                  (([⟨0, 0, 0⟩, ⟨3, 0, 0⟩] : List (Vec3 ℚ)).getD i vzero)
                  (([⟨1, 1, 0⟩, ⟨2, 1, 0⟩] : List (Vec3 ℚ)).getD i vzero)
                  (([⟨1, 0, 0⟩, ⟨2, 0, 0⟩] : List (Vec3 ℚ)).getD (i + 1) vzero)
                  (([⟨0, 0, 0⟩, ⟨3, 0, 0⟩] : List (Vec3 ℚ)).getD (i + 1) vzero)
                  ((j : ℚ) / (2 : ℚ))))) ∧
          ∀ pts,
            buildPath 2 ([⟨0, 0, 0⟩, ⟨3, 0, 0⟩] : List (Vec3 ℚ))
              [⟨1, 0, 0⟩, ⟨2, 0, 0⟩] [⟨1, 1, 0⟩, ⟨2, 1, 0⟩] 2 = some pts →
            pts.length = (2 - 1) * 2)) :=
  ⟨by norm_num, by norm_num, by norm_num,
    buildPath_spec 2 2 _ _ _ (by norm_num) (by norm_num) (by norm_num)⟩

set_option maxHeartbeats 2000000 in
/-- The closed-form inverse really is a right inverse of the projection
matrix on valid intrinsics. -/
theorem projectionMatrix_mul_inv (t aspect near far : ℚ)
    (ht : 0 < t) (ha : 0 < aspect) (hn : 0 < near) (hnf : near < far) :
    projectionMatrix t aspect near far * projectionMatrixInverse t aspect near far = 1 := by
  have hn0 : near ≠ 0 := ne_of_gt hn
  have ht0 : t ≠ 0 := ne_of_gt ht
  have ha0 : aspect ≠ 0 := ne_of_gt ha
  have hfn : far - near ≠ 0 := ne_of_gt (by linarith)
  have hf0 : far ≠ 0 := ne_of_gt (lt_trans hn hnf)
  ext i j
  fin_cases i <;> fin_cases j <;>
    simp [projectionMatrix, projectionMatrixInverse, makePerspective,
      Matrix.mul_apply, Fin.sum_univ_four, Matrix.one_apply,
      Matrix.vecHead, Matrix.vecTail] <;>
    (try field_simp) <;>
    first
      | rfl
      | ring

set_option maxHeartbeats 2000000 in
/-- The closed-form inverse really is a left inverse of the projection
matrix on valid intrinsics. -/
theorem projectionMatrix_inv_mul (t aspect near far : ℚ)
    (ht : 0 < t) (ha : 0 < aspect) (hn : 0 < near) (hnf : near < far) :
    projectionMatrixInverse t aspect near far * projectionMatrix t aspect near far = 1 := by
  have hn0 : near ≠ 0 := ne_of_gt hn
  have ht0 : t ≠ 0 := ne_of_gt ht
  have ha0 : aspect ≠ 0 := ne_of_gt ha
  have hfn : far - near ≠ 0 := ne_of_gt (by linarith)
  have hf0 : far ≠ 0 := ne_of_gt (lt_trans hn hnf)
  ext i j
  fin_cases i <;> fin_cases j <;>
    simp [projectionMatrix, projectionMatrixInverse, makePerspective,
      Matrix.mul_apply, Fin.sum_univ_four, Matrix.one_apply,
      Matrix.vecHead, Matrix.vecTail] <;>
    (try field_simp) <;>
    first
      | rfl
      | ring

/-- Claim C2: for every valid intrinsics tuple (`t` is the tangent of
half the vertical field of view, positive exactly when the field of view
lies in the open interval from 0 to 180 degrees), the frustum wireframe
builder returns exactly 5 vertices and 18 indices, the apex vertex is
the local origin, and the other four vertices are the images of the NDC
corners `(±1, ±1, 1)` under the inverse of the perspective projection
matrix derived from the intrinsics — the two product conjuncts verify
that `projectionMatrixInverse` really is that inverse. -/
theorem frustum_wireframe_spec (t aspect near far : ℚ)
    (ht : 0 < t) (ha : 0 < aspect) (hn : 0 < near) (hnf : near < far) :
    (ComputeFrustumVertices t aspect near far).length = 5 ∧
      frustum_indices.length = 18 ∧
      (ComputeFrustumVertices t aspect near far).head? = some ⟨0, 0, 0⟩ ∧
      ComputeFrustumVertices t aspect near far =
        [⟨0, 0, 0⟩,
         applyMatrix4 (projectionMatrixInverse t aspect near far) ⟨-1, -1, 1⟩,
         applyMatrix4 (projectionMatrixInverse t aspect near far) ⟨-1, 1, 1⟩,
         applyMatrix4 (projectionMatrixInverse t aspect near far) ⟨1, 1, 1⟩,
         applyMatrix4 (projectionMatrixInverse t aspect near far) ⟨1, -1, 1⟩] ∧
      projectionMatrix t aspect near far * projectionMatrixInverse t aspect near far = 1 ∧
      projectionMatrixInverse t aspect near far * projectionMatrix t aspect near far = 1 :=
  ⟨rfl, rfl, rfl, rfl, projectionMatrix_mul_inv t aspect near far ht ha hn hnf,
    projectionMatrix_inv_mul t aspect near far ht ha hn hnf⟩

/-- Witness for C2 at `t = 1` (a 90 degree field of view), aspect 1.6,
near 0.1, far 3 (the control defaults apart from the field of view). -/
theorem frustum_wireframe_spec_witness :
    (0 : ℚ) < 1 ∧ (0 : ℚ) < 8 / 5 ∧ (0 : ℚ) < 1 / 10 ∧ (1 / 10 : ℚ) < 3 ∧
      ((ComputeFrustumVertices 1 (8 / 5) (1 / 10) 3).length = 5 ∧
        frustum_indices.length = 18 ∧
        (ComputeFrustumVertices 1 (8 / 5) (1 / 10) 3).head? = some ⟨0, 0, 0⟩ ∧
        ComputeFrustumVertices 1 (8 / 5) (1 / 10) 3 =
          [⟨0, 0, 0⟩,
           applyMatrix4 (projectionMatrixInverse 1 (8 / 5) (1 / 10) 3) ⟨-1, -1, 1⟩,
           applyMatrix4 (projectionMatrixInverse 1 (8 / 5) (1 / 10) 3) ⟨-1, 1, 1⟩,
           applyMatrix4 (projectionMatrixInverse 1 (8 / 5) (1 / 10) 3) ⟨1, 1, 1⟩,
           applyMatrix4 (projectionMatrixInverse 1 (8 / 5) (1 / 10) 3) ⟨1, -1, 1⟩] ∧
        projectionMatrix 1 (8 / 5) (1 / 10) 3 *
            projectionMatrixInverse 1 (8 / 5) (1 / 10) 3 = 1 ∧
        projectionMatrixInverse 1 (8 / 5) (1 / 10) 3 *
            projectionMatrix 1 (8 / 5) (1 / 10) 3 = 1) :=
  ⟨by norm_num, by norm_num, by norm_num, by norm_num,
    frustum_wireframe_spec 1 (8 / 5) (1 / 10) 3 (by norm_num) (by norm_num)
      (by norm_num) (by norm_num)⟩

/-- Claim C3: the `z_depth` the code computes from the camera and focal
positions is the negated Euclidean distance between them (stated with
the Mathlib metric on `ℝ³`), and both tangent handles are placed at
`(±offset, 0, z_depth)` in camera-local space; the `updateFocal`
drag callback writes the same negated distance into the `z` coordinate
of both handles. -/
theorem z_depth_eq_neg_dist (pos foc : Vec3 ℝ) (leftHandle rightHandle : ℝ)
    (lh rh : Vec3 ℝ) :
    z_depth pos foc = -dist (toE pos) (toE foc) ∧
      leftHandleLocal leftHandle pos foc =
        ⟨-leftHandle, 0, -dist (toE pos) (toE foc)⟩ ∧
      rightHandleLocal rightHandle pos foc =
        ⟨rightHandle, 0, -dist (toE pos) (toE foc)⟩ ∧
      (updateFocal pos foc lh rh).1 = ⟨lh.x, lh.y, -dist (toE pos) (toE foc)⟩ ∧
      (updateFocal pos foc lh rh).2 = ⟨rh.x, rh.y, -dist (toE pos) (toE foc)⟩ := by
  have key : vlength (vsub pos foc) = dist (toE pos) (toE foc) := by
    rw [EuclideanSpace.dist_eq]
    simp only [vlength, vsub, toE, Fin.sum_univ_three, Matrix.cons_val_zero,
      Matrix.cons_val_one, Matrix.head_cons, Matrix.cons_val_two, Matrix.tail_cons]
    simp [Real.dist_eq, sq_abs]
  refine ⟨?_, ?_, ?_, ?_, ?_⟩ <;>
    simp [z_depth, leftHandleLocal, rightHandleLocal, updateFocal, key]

/-- Counterexample to claim C5: the constructor stores `fov = 0`,
`near = 2`, `far = 1` unvalidated (no InvalidIntrinsics failure), the
fov control clamps `-5` to `0`, which is outside the documented range
`(0, 180]`, and the near/far controls admit `near = far = 1`, violating
`near < far`. -/
theorem intrinsics_clamp_counterexample :
    mkPerspectiveCamera 0 (8 / 5) 2 1 = ⟨0, 8 / 5, 2, 1⟩ ∧
      setFov (-5) = 0 ∧ ¬(0 < setFov (-5)) ∧
      setNear 1 = 1 ∧ setFar 0 = 1 ∧ ¬(setNear 1 < setFar 0) := by
  refine ⟨rfl, ?_, ?_, ?_, ?_, ?_⟩ <;>
    norm_num [setFov, setNear, setFar, levaClamp]

/-- Amended claim C5: construction never fails — the camera stores the
given intrinsics unvalidated — and each control clamps its input
silently to its configured range (`fov ∈ [0, 180]`, `near ∈ [0.01, 1]`,
`far ∈ [1, 10]`, `aspect ∈ [0.1, 10]`); these ranges still admit
`fov = 0` and `near = far = 1`. -/
theorem intrinsics_clamp_amended (fov aspect near far v : ℚ) :
    mkPerspectiveCamera fov aspect near far = ⟨fov, aspect, near, far⟩ ∧
      0 ≤ setFov v ∧ setFov v ≤ 180 ∧
      1 / 100 ≤ setNear v ∧ setNear v ≤ 1 ∧
      1 ≤ setFar v ∧ setFar v ≤ 10 ∧
      1 / 10 ≤ setAspect v ∧ setAspect v ≤ 10 := by
  refine ⟨rfl, le_max_left _ _, ?_, le_max_left _ _, ?_, le_max_left _ _, ?_,
    le_max_left _ _, ?_⟩ <;>
    exact max_le (by norm_num) (min_le_left _ _)

/-- The scenario path reduces to the ten Bezier samples of the single
segment `[focal 0, rightHandle 0, leftHandle 1, focal 1]` at parameters
`j / 10` for `j = 0 .. 9`. -/
theorem scenario_curve_eq :
    computeCurve 2 scenarioFocal scenarioLeft scenarioRight 10 =
      (List.range 10).map (fun (j : ℕ) =>
        bezierPoint (⟨0, 1, 3 / 2⟩ : Vec3 ℝ) ⟨1 / 2, 1, 3 / 2⟩
          ⟨2 - 13 / (2 * Real.sqrt 41), 1, 5 / 2 - 3 / Real.sqrt 41⟩
          ⟨2 - 4 / Real.sqrt 41, 1, 5 / 2 - 5 / Real.sqrt 41⟩ ((j : ℝ) / 10)) := by
  rw [computeCurve_eq_spec 2 10 _ _ _ (by simp [scenarioFocal]) (by simp [scenarioLeft])
    (by simp [scenarioRight])]
  simp only [show (2 : ℕ) - 1 = 1 from rfl, show List.range 1 = [0] from rfl,
    List.flatMap_cons, List.flatMap_nil, List.append_nil]
  norm_num [scenarioFocal, scenarioLeft, scenarioRight]

/-- The Bezier point of the scenario segment at parameter 9/10 differs
from the rig 1 focal point (the segment endpoint that the code never
emits): their first coordinates differ. -/
theorem scenario_last_ne_focal :
    bezierPoint (⟨0, 1, 3 / 2⟩ : Vec3 ℝ) ⟨1 / 2, 1, 3 / 2⟩
        ⟨2 - 13 / (2 * Real.sqrt 41), 1, 5 / 2 - 3 / Real.sqrt 41⟩
        ⟨2 - 4 / Real.sqrt 41, 1, 5 / 2 - 5 / Real.sqrt 41⟩ ((9 : ℕ) / 10 : ℝ) ≠
      ⟨2 - 4 / Real.sqrt 41, 1, 5 / 2 - 5 / Real.sqrt 41⟩ := by
  intro h
  have hx := congrArg Vec3.x h
  have hq : (0 : ℝ) < Real.sqrt 41 := Real.sqrt_pos.mpr (by norm_num)
  have hq0 : Real.sqrt 41 ≠ 0 := ne_of_gt hq
  simp only [bezierPoint] at hx
  norm_num at hx
  field_simp at hx
  have hs2 : Real.sqrt 41 ^ 2 = 41 := Real.sq_sqrt (by norm_num)
  nlinarith [hq, hs2]

/-- Counterexample to claim C6: in the two-rig scenario with
`samples = 10`, the path has 10 points, not 9 (the code emits `samples`
points per segment), and its last point is the Bezier point at parameter
9/10, not the rig 1 focal point. -/
theorem two_rig_scenario_counterexample :
    (computeCurve 2 scenarioFocal scenarioLeft scenarioRight 10).length ≠ 9 ∧
      (computeCurve 2 scenarioFocal scenarioLeft scenarioRight 10).getLast? ≠
        some ⟨2 - 4 / Real.sqrt 41, 1, 5 / 2 - 5 / Real.sqrt 41⟩ := by
  constructor
  · rw [computeCurve_length 2 10 _ _ _ (by simp [scenarioFocal]) (by simp [scenarioLeft])
      (by simp [scenarioRight])]
    norm_num
  · rw [scenario_curve_eq]
    have hlast :
        ((List.range 10).map (fun (j : ℕ) =>
            bezierPoint (⟨0, 1, 3 / 2⟩ : Vec3 ℝ) ⟨1 / 2, 1, 3 / 2⟩
              ⟨2 - 13 / (2 * Real.sqrt 41), 1, 5 / 2 - 3 / Real.sqrt 41⟩
              ⟨2 - 4 / Real.sqrt 41, 1, 5 / 2 - 5 / Real.sqrt 41⟩
              ((j : ℝ) / 10))).getLast? =
          some (bezierPoint (⟨0, 1, 3 / 2⟩ : Vec3 ℝ) ⟨1 / 2, 1, 3 / 2⟩
            ⟨2 - 13 / (2 * Real.sqrt 41), 1, 5 / 2 - 3 / Real.sqrt 41⟩
            ⟨2 - 4 / Real.sqrt 41, 1, 5 / 2 - 5 / Real.sqrt 41⟩ ((9 : ℕ) / 10 : ℝ)) := by
      simp [List.range_succ]
    rw [hlast]
    intro h
    exact scenario_last_ne_focal (Option.some.injEq _ _ ▸ h ▸ rfl)

/-- Amended claim C6: in the two-rig scenario (rigs at `(0, 1, 2.5)` and
`(2, 1, 2.5)`, both aimed at `(0, 1, 0)`, default handle offsets),
`buildPath` with `samples = 10` yields exactly 10 points from the single
segment; the first sample equals the rig 0 focal point exactly, and the
last sample is the Bezier point at parameter 9/10 — which differs from
the rig 1 focal point, the unemitted endpoint of the segment. -/
theorem two_rig_scenario_amended :
    ∃ pts, buildPath 2 scenarioFocal scenarioLeft scenarioRight 10 = some pts ∧
      pts.length = 10 ∧
      pts.head? = some ⟨0, 1, 3 / 2⟩ ∧
      pts.getLast? = some (bezierPoint (⟨0, 1, 3 / 2⟩ : Vec3 ℝ) ⟨1 / 2, 1, 3 / 2⟩
        ⟨2 - 13 / (2 * Real.sqrt 41), 1, 5 / 2 - 3 / Real.sqrt 41⟩
        ⟨2 - 4 / Real.sqrt 41, 1, 5 / 2 - 5 / Real.sqrt 41⟩ ((9 : ℕ) / 10 : ℝ)) ∧
      pts.getLast? ≠ some ⟨2 - 4 / Real.sqrt 41, 1, 5 / 2 - 5 / Real.sqrt 41⟩ := by
  refine ⟨computeCurve 2 scenarioFocal scenarioLeft scenarioRight 10, by simp [buildPath],
    ?_, ?_, ?_, ?_⟩
  · rw [computeCurve_length 2 10 _ _ _ (by simp [scenarioFocal]) (by simp [scenarioLeft])
      (by simp [scenarioRight])]
  · rw [scenario_curve_eq]
    simp [List.range_succ]
    norm_num [bezierPoint]
  · rw [scenario_curve_eq]
    simp [List.range_succ]
  · rw [scenario_curve_eq]
    have hlast :
        ((List.range 10).map (fun (j : ℕ) =>
            bezierPoint (⟨0, 1, 3 / 2⟩ : Vec3 ℝ) ⟨1 / 2, 1, 3 / 2⟩
              ⟨2 - 13 / (2 * Real.sqrt 41), 1, 5 / 2 - 3 / Real.sqrt 41⟩
              ⟨2 - 4 / Real.sqrt 41, 1, 5 / 2 - 5 / Real.sqrt 41⟩
              ((j : ℝ) / 10))).getLast? =
          some (bezierPoint (⟨0, 1, 3 / 2⟩ : Vec3 ℝ) ⟨1 / 2, 1, 3 / 2⟩
            ⟨2 - 13 / (2 * Real.sqrt 41), 1, 5 / 2 - 3 / Real.sqrt 41⟩
            ⟨2 - 4 / Real.sqrt 41, 1, 5 / 2 - 5 / Real.sqrt 41⟩ ((9 : ℕ) / 10 : ℝ)) := by
      simp [List.range_succ]
    rw [hlast]
    intro h
    exact scenario_last_ne_focal (Option.some.injEq _ _ ▸ h ▸ rfl)

end CameraSpline
